import Mathlib

/-!
Shallow embedding of the Interactive-StorygenAI agent pipeline
(`src/server/agents/*.ts`, `src/server/routes.ts`).

External providers (language model, embedding model) are modelled as oracle
functions passed in as parameters; a provider failure ("throw") is an
`Except.error ()` result.  JavaScript strings are modelled as Lean `String`
(ASCII-faithful), JS numbers used as similarity scores as real numbers, and
the Postgres-backed storage as an explicit list of messages that is threaded
through the functions that mutate it.
-/

set_option maxHeartbeats 1600000

/-- One row of the `messages` table (`src/shared/schema.ts`): a narrative
turn with a storage-assigned id. `createdAt` is never consulted by the
pipeline and is omitted. -/
structure Message where
  id : String
  role : String
  content : String
  location : Option String
deriving DecidableEq, Repr

/-- One row of the `memory_logs` table, restricted to the fields written by
the consolidation step of the chat route. -/
structure MemoryLog where
  content : String
  summary : String
  importance : Nat
deriving DecidableEq, Repr

/-- The singleton `settings` row as read by the orchestrator. -/
structure Settings where
  geminiApiKey : Option String
  behaviorPrompt : String
  frameworkTemplate : String
  characterPreset : String
  lore : String
deriving DecidableEq, Repr

/-- JavaScript `\s` for the ASCII range (space, tab, newline, carriage
return, vertical tab, form feed). -/
def jsWhitespace (c : Char) : Bool :=
  c = ' ' || c = '\t' || c = '\n' || c = '\r' || c = '\x0b' || c = '\x0c'

/-- JavaScript `\w`: ASCII letters, digits and underscore. -/
def jsWordChar (c : Char) : Bool :=
  c.isAlpha || c.isDigit || c = '_'

/-- JavaScript `String.prototype.toLowerCase` (ASCII-faithful). -/
def jsToLower (s : String) : String := String.mk (s.toList.map Char.toLower)

/-- JavaScript `String.prototype.trim`. -/
def jsTrim (s : String) : String :=
  String.mk (((s.toList.dropWhile jsWhitespace).reverse.dropWhile jsWhitespace).reverse)

/-- JavaScript `a || b` for an optional string `a` (both `null` and the
empty string are falsy). -/
def jsOrString (a : Option String) (b : String) : String :=
  match a with
  | some s => if s = "" then b else s
  | none => b

/-- JavaScript `a || b` for two optional strings. -/
def jsOrOption (a b : Option String) : Option String :=
  match a with
  | some s => if s = "" then b else some s
  | none => b

/-- Returns `none` when the optional string is JS-falsy (`null` or `""`). -/
def jsTruthy (a : Option String) : Option String :=
  match a with
  | some s => if s = "" then none else some s
  | none => none

/-- Tests whether the first list is a leading segment of the second (JS
`String.prototype.startsWith` on char lists). -/
def startsWithChars : List Char → List Char → Bool
  | [], _ => true
  | _ :: _, [] => false
  | a :: asTail, b :: bs => a = b && startsWithChars asTail bs

/-- JS `String.prototype.includes`: `needle` occurs as a contiguous
substring of `hay`. -/
def containsSub (needle : List Char) : List Char → Bool
  | [] => startsWithChars needle []
  | c :: rest => startsWithChars needle (c :: rest) || containsSub needle rest

/-- Split a char list on runs of JS whitespace, keeping the non-empty
chunks (JS `split(/\s+/)` also yields a leading `""` when the string starts
with whitespace; that chunk is discarded by the length filter that always
follows in the source, so it is dropped here). -/
def splitWsAux : List Char → List Char → List String
  | [], acc => if acc.isEmpty then [] else [String.mk acc.reverse]
  | c :: rest, acc =>
    if jsWhitespace c then
      if acc.isEmpty then splitWsAux rest [] else String.mk acc.reverse :: splitWsAux rest []
    else splitWsAux rest (c :: acc)

def splitWs (cs : List Char) : List String := splitWsAux cs []

/-- First-occurrence deduplication (JS `new Set(...)` iteration order). -/
def dedupFirstAux [DecidableEq α] (seen : List α) : List α → List α
  | [] => []
  | x :: xs => if x ∈ seen then dedupFirstAux seen xs else x :: dedupFirstAux (x :: seen) xs

def dedupFirst [DecidableEq α] (l : List α) : List α := dedupFirstAux [] l

/-- Stop-word list of `QueryAgent.extractKeywords`
(`src/server/agents/query.agent.ts`). -/
def stopWords : List String :=
  ["the", "a", "an", "and", "or", "but", "in", "on", "at", "to", "for", "of", "with", "by",
   "is", "are", "was", "were", "be", "been", "being", "have", "has", "had", "do", "does", "did"]

/-- Model of `QueryAgent.extractKeywords`: lower-case the query, replace the
characters matching `[^\w\s]` by spaces, split on whitespace, keep words of
length `> 2` that are not stop words, and deduplicate keeping first
occurrences. -/
def extractKeywords (query : String) : List String :=
  let replaced := (jsToLower query).toList.map
    (fun c => if jsWordChar c || jsWhitespace c then c else ' ')
  let words := splitWs replaced
  let filtered := words.filter (fun w => w.length > 2 && !(stopWords.contains w))
  dedupFirst filtered

/-- The `uniqueMessages` map of `QueryAgent.keywordSearch`: collect messages
in iteration order, keeping only the first message seen for each id. -/
def dedupById (seen : List String) : List Message → List Message
  | [] => []
  | m :: rest =>
    if m.id ∈ seen then dedupById seen rest
    else m :: dedupById (m.id :: seen) rest

/-- Model of `QueryAgent.keywordSearch`: per keyword, filter the corpus by
case-insensitive substring match, stable-sort by content length ascending,
cap at `keywordLimit`; then union all per-keyword matches, first occurrence
of each id winning. -/
def keywordSearch (query : String) (allMessages : List Message) : List Message :=
  let keywords := extractKeywords query
  if keywords.length = 0 then []
  else
    let keywordLimit := if keywords.length < 5 then 15 else 10
    let allKeywordMatches := keywords.map (fun keyword =>
      let matched := allMessages.filter
        (fun m => containsSub ((jsToLower keyword).toList) ((jsToLower m.content).toList))
      let sortedMatches := matched.mergeSort
        (fun a b => decide (a.content.length ≤ b.content.length))
      sortedMatches.take keywordLimit)
    dedupById [] allKeywordMatches.flatten

/-- The `MemoryAgent.cosineSimilarity` dot product:
`vecA.reduce((sum, val, idx) => sum + val * vecB[idx], 0)` for equal-length
vectors. -/
noncomputable def dotProduct (a b : List ℝ) : ℝ :=
  ((a.zip b).map (fun p => p.1 * p.2)).sum

/-- Sum of squares of the entries of a vector. -/
noncomputable def sumSq (v : List ℝ) : ℝ :=
  (v.map (fun x => x * x)).sum

/-- Model of `Math.sqrt(v.reduce((sum, val) => sum + val * val, 0))`. -/
noncomputable def magnitude (v : List ℝ) : ℝ :=
  Real.sqrt (sumSq v)

/-- Model of `MemoryAgent.cosineSimilarity` (`src/server/agents/memory.agent.ts`):
returns `0` when either magnitude is zero, otherwise the normalised dot
product. -/
noncomputable def cosineSimilarity (vecA vecB : List ℝ) : ℝ :=
  if magnitude vecA = 0 ∨ magnitude vecB = 0 then 0
  else dotProduct vecA vecB / (magnitude vecA * magnitude vecB)

/-- Model of `MemoryAgent.getEmbeddings`: embed each text in order, failing as soon
as one provider call fails. -/
def getEmbeddings (embed : String → Except Unit (List ℝ)) : List String → Except Unit (List (List ℝ))
  | [] => Except.ok []
  | t :: ts =>
    match embed t with
    | Except.error e => Except.error e
    | Except.ok v =>
      match getEmbeddings embed ts with
      | Except.error e => Except.error e
      | Except.ok rest => Except.ok (v :: rest)

/-- The `try` block of `QueryAgent.semanticSearch`: embed the query and all
message contents, score each message by cosine similarity, keep scores
`> 0.1`, sort by score descending (stable), and cap at 15. -/
noncomputable def semanticSearchTry (embed : String → Except Unit (List ℝ))
    (query : String) (allMessages : List Message) : Except Unit (List Message) :=
  match embed query with
  | Except.error e => Except.error e
  | Except.ok queryEmbedding =>
    match getEmbeddings embed (allMessages.map (·.content)) with
    | Except.error e => Except.error e
    | Except.ok messageEmbeddings =>
      let similarities := (allMessages.zip messageEmbeddings).map
        (fun p => (p.1, cosineSimilarity queryEmbedding p.2))
      let relevantMessages :=
        ((similarities.filter (fun s => decide ((0.1 : ℝ) < s.2))).mergeSort
          (fun a b => decide (b.2 ≤ a.2))).map (·.1)
      Except.ok (relevantMessages.take 15)

/-- Model of `QueryAgent.semanticSearch`: the `catch` arm turns any embedding
failure into an empty result. -/
noncomputable def semanticSearch (embed : String → Except Unit (List ℝ))
    (query : String) (allMessages : List Message) : List Message :=
  match semanticSearchTry embed query allMessages with
  | Except.ok r => r
  | Except.error _ => []

/-- The merge loop of `QueryAgent.queryMessages`: walk the semantic
results, appending a message when its id is not in `existingIds` (the set of
keyword-result ids, computed once and never updated). -/
def mergeSemantic (combinedResults : List Message) (existingIds : List String) :
    List Message → List Message
  | [] => combinedResults
  | m :: rest =>
    if m.id ∈ existingIds then mergeSemantic combinedResults existingIds rest
    else mergeSemantic (combinedResults ++ [m]) existingIds rest

/-- Model of `QueryAgent.queryMessages` (`src/server/agents/query.agent.ts`): empty
corpus short-circuits; otherwise keyword results first, then semantic
results whose id is new, capped at 100. -/
noncomputable def queryMessages (embed : String → Except Unit (List ℝ))
    (query : String) (allMessages : List Message) : List Message :=
  if allMessages.length = 0 then []
  else
    let keywordBasedResults := keywordSearch query allMessages
    let semanticSearchResults := semanticSearch embed query allMessages
    let combinedResults :=
      mergeSemantic keywordBasedResults (keywordBasedResults.map (·.id)) semanticSearchResults
    combinedResults.take 100

/-- Model of `SmartRagAgent.buildFilteringPrompt` (`SmartRagAgent.ts`): the
single-shot distillation prompt around the retrieved memories, the recent
history and the user input. -/
def buildFilteringPrompt (userMessage : String)
    (retrievedMemories recentHistory : List Message) : String :=
  let memoriesText := String.intercalate "\n\n"
    (retrievedMemories.map (fun mem => "[Memory Chunk]\n" ++ mem.role ++ ": " ++ mem.content))
  let historyText := String.intercalate "\n"
    (recentHistory.map (fun msg => msg.role ++ ": " ++ msg.content))
  "\n**ROLE AND FUNCTION:**\nYou are a canonical context selector for a story-driven AI system.\nYour task is NOT to write prose, but to SELECT existing story passages\nthat are REQUIRED to maintain narrative continuity for the current scene.\n\n---\n\n**SOURCE OF TRUTH (OUTPUT MAY ONLY COME FROM HERE):**\nBelow are the retrieved canonical story messages.\nThese messages are the ONLY allowed source for your output.\n\n---\n"
    ++ memoriesText
    ++ "\n---\n\n**AUXILIARY CONTEXT (FOR REASONING ONLY — NEVER OUTPUT):**\nThe following messages are provided ONLY to help you understand\nthe current narrative flow and intent.\n\nRecent conversation:\n---\n"
    ++ historyText
    ++ "\n---\n\nUser\x27s current input:\n---\n\""
    ++ userMessage
    ++ "\"\n---\n\n---\n\n**YOUR TASK:**\n1. Understand the current scene, tone, and narrative direction\n   based on the auxiliary context.\n2. Review the canonical story messages.\n3. Select ONLY the passages that:\n   - Add background, lore, or prior events REQUIRED to understand the current scene\n   - Introduce or explain entities, symbols, titles, or factions referenced or implied\n   - Maintain continuity of character roles, identities, or power dynamics\n4. The selected passages must contribute NEW information,\n   not merely repeat or mirror the user\x27s current input.\n\n**STRICT OUTPUT RULES:**\n- You MUST output text ONLY from the canonical story messages.\n- You MUST NOT output anything from:\n  - User\x27s current input\n  - Recent conversation context\n- Restating, paraphrasing, or echoing the user\x27s input is FORBIDDEN.\n- Partial relevance is NOT sufficient.\n- If a passage is only loosely related, DO NOT include it.\n- If no canonical passages are truly required, return an EMPTY RESPONSE.\n\n**CRITICAL FAILURE CONDITIONS (AVOID):**\n- Including any text not found verbatim in the canonical story messages\n- Including passages that only match keywords but do not add narrative value\n- Including text that the user already knows from their own input\n\n**FINAL OUTPUT:**\nReturn ONLY the exact, verbatim passages from the canonical story messages.\nDo NOT add headings, explanations, or formatting.\n"

/-- Model of `SmartRagAgent.filterContext`: empty retrieved set short-circuits to
`""` with no provider call; otherwise one un-guarded provider call whose
failure propagates. -/
def filterContext (filterModel : String → Except Unit String) (userMessage : String)
    (retrievedMemories : List Message) (recentHistory : List Message) : Except Unit String :=
  if retrievedMemories.length = 0 then Except.ok ""
  else do
    let prompt := buildFilteringPrompt userMessage retrievedMemories recentHistory
    let raw ← filterModel prompt
    pure (jsTrim raw)

/-- Model of `SmartRagAgent.handleRequest`: retrieve via `QueryAgent.queryMessages`
over the stored messages, then distill against the last 5 turns of the
working history. -/
noncomputable def smartRagHandleRequest (embed : String → Except Unit (List ℝ))
    (filterModel : String → Except Unit String) (userMessage : String)
    (rawConversationHistory : List Message) (storageMessages : List Message) :
    Except Unit String :=
  let retrievedMemories := queryMessages embed userMessage storageMessages
  let recentHistory := rawConversationHistory.drop (rawConversationHistory.length - 5)
  filterContext filterModel userMessage retrievedMemories recentHistory

/-- The `ProofreaderResult` record of `proofreader.agent.ts`. -/
structure ProofreaderResult where
  isCompliant : Bool
  feedback : Option String
deriving DecidableEq, Repr

/-- Model of `text.replace(/^NON-COMPLIANT\s*/, "")`: strip a leading
`NON-COMPLIANT` marker together with the whitespace that follows it. -/
def stripNonCompliant (text : String) : String :=
  if startsWithChars "NON-COMPLIANT".toList text.toList then
    String.mk ((text.toList.drop 13).dropWhile jsWhitespace)
  else text

/-- Model of `ProofreaderAgent.reviewResponse`: the review-model oracle receives the
generated response and the user message (the fixed prompt template around
them is provider-opaque) and returns the raw verdict text; any provider
failure defaults to a compliant verdict. -/
def reviewResponse (reviewModel : String → String → Except Unit String)
    (response : String) (userMessage : String) : ProofreaderResult :=
  match reviewModel response userMessage with
  | Except.error _ => ⟨true, none⟩
  | Except.ok raw =>
    let text := jsTrim raw
    if startsWithChars "COMPLIANT".toList text.toList then ⟨true, none⟩
    else
      let feedback := jsTrim (stripNonCompliant text)
      ⟨false, some (if feedback = ""
        then "The response was non-compliant, but no specific feedback was provided."
        else feedback)⟩

/-- The regex arm of `OrchestratorAgent._extractLocation`:
`text.match(/^\s*\*\*Location:\*\*\s*(.*)/)` — skip leading whitespace
(which may span blank lines), require the literal `**Location:**` label,
skip whitespace again, and capture up to the end of that line.  Returns the
raw capture group (possibly empty). -/
def matchExplicitLocation (text : String) : Option String :=
  let afterLeadingWs := text.toList.dropWhile jsWhitespace
  if startsWithChars "**Location:**".toList afterLeadingWs then
    let afterLabel := (afterLeadingWs.drop 13).dropWhile jsWhitespace
    some (String.mk (afterLabel.takeWhile (fun c => c ≠ '\n')))
  else none

/-- Model of `text.split("\n")`, keeping empty lines. -/
def splitLines : List Char → List (List Char)
  | [] => [[]]
  | c :: rest =>
    let r := splitLines rest
    if c = '\n' then [] :: r
    else
      match r with
      | h :: t => (c :: h) :: t
      | [] => [[c]]

/-- Model of `text.split("\n").slice(0, 5).join("\n")`: the first five lines sent to
the location model. -/
def headerOf (text : String) : String :=
  String.intercalate "\n" (((splitLines text.toList).map String.mk).take 5)

/-- The model arm of `OrchestratorAgent._extractLocation`: the location
oracle receives the five-line header (the fixed prompt template around it is
provider-opaque); its answer is accepted only when non-empty, not `"N/A"`,
and longer than 5 characters; a provider failure yields `none`. -/
def modelExtract (locModel : String → Except Unit String) (text : String) : Option String :=
  match locModel (headerOf text) with
  | Except.error _ => none
  | Except.ok raw =>
    let location := jsTrim raw
    if location ≠ "" && location ≠ "N/A" && location.length > 5 then some location
    else none

/-- Model of `OrchestratorAgent._extractLocation`: empty text yields `none`; an
explicit `**Location:**` match with a non-empty capture is returned trimmed,
without consulting the model; otherwise the model arm runs. -/
def extractLocation (locModel : String → Except Unit String) (text : String) : Option String :=
  if text = "" then none
  else
    match matchExplicitLocation text with
    | some captured =>
      if captured ≠ "" then some (jsTrim captured) else modelExtract locModel text
    | none => modelExtract locModel text

/-- One entry of `chatContext.conversationHistory` in
`OrchestratorAgent.handleRequest`. -/
structure ChatMessage where
  role : String
  content : String
deriving DecidableEq, Repr

/-- The `chatContext` record assembled by `OrchestratorAgent.handleRequest`
(the orchestrator omits `lore`). -/
structure ChatContext where
  behaviorPrompt : String
  frameworkTemplate : String
  characterPreset : Option String
  relevantMemories : List String
  conversationHistory : List ChatMessage
deriving DecidableEq, Repr

/-- The corrective note pushed into the working history on a non-compliant
verdict (JS template interpolation renders a `null` feedback as `"null"`). -/
def systemNote (feedback : Option String) : String :=
  "System Note: The previous response was not compliant. Please fix the following issues and regenerate the response:\n- "
    ++ (match feedback with | some s => s | none => "null")

/-- The two turns pushed into `chatContext.conversationHistory` before a
retry: the rejected draft as a model turn and the corrective note as a user
turn. -/
def pushFeedback (ctx : ChatContext) (generatedResponse : String)
    (feedback : Option String) : ChatContext :=
  { ctx with conversationHistory :=
      ctx.conversationHistory ++ [⟨"model", generatedResponse⟩, ⟨"user", systemNote feedback⟩] }

/-- The `for (let i = 0; i < MAX_RETRIES; i++)` generation/review loop of
`OrchestratorAgent.handleRequest`, with the remaining iteration budget as
fuel.  Returns the accepted (or last) response, the final working context
and the number of generation attempts performed. -/
def genLoop (gen : ChatContext → Except Unit String) (review : String → ProofreaderResult) :
    Nat → ChatContext → String → Except Unit (String × ChatContext × Nat)
  | 0, ctx, response => Except.ok (response, ctx, 0)
  | n + 1, ctx, _ =>
    match gen ctx with
    | Except.error e => Except.error e
    | Except.ok generatedResponse =>
      let r := review generatedResponse
      if r.isCompliant then Except.ok (generatedResponse, ctx, 1)
      else
        match genLoop gen review n (pushFeedback ctx generatedResponse r.feedback) generatedResponse with
        | Except.ok (resp, c, k) => Except.ok (resp, c, k + 1)
        | Except.error e => Except.error e

/-- Model of the id generation of the storage collaborator
(`gen_random_uuid()`):
a fresh id for the next created row. -/
def freshId (storageMessages : List Message) : String := toString storageMessages.length

/-- Model of `rawConversationHistory.length > 0 ? history[last].location ||
"Unknown" : "Unknown"`. -/
def lastKnownLocationOf (rawConversationHistory : List Message) : String :=
  match rawConversationHistory.getLast? with
  | some m => jsOrString m.location "Unknown"
  | none => "Unknown"

/-- The `chatContext` literal of `OrchestratorAgent.handleRequest`:
settings fields, the distilled canon as the single relevant memory, and the
last 20 turns of the working history with roles collapsed to
`user`/`model`. -/
def mkChatContext (s : Settings) (filteredCanon : String)
    (updatedConversationHistory : List Message) : ChatContext :=
  { behaviorPrompt := s.behaviorPrompt
    frameworkTemplate := s.frameworkTemplate
    characterPreset := jsTruthy (some s.characterPreset)
    relevantMemories := [filteredCanon]
    conversationHistory :=
      (updatedConversationHistory.drop (updatedConversationHistory.length - 20)).map
        (fun msg => ⟨if msg.role = "user" then "user" else "model", msg.content⟩) }

/-- Model of `OrchestratorAgent.handleRequest` (`orchestrator.agent.ts`): settings
and key checks, persist the user turn, retrieve + distill, run the bounded
generation/review loop, resolve the new location, persist the assistant
turn, return the response.  The second component is the storage state after
the call. -/
noncomputable def handleRequest (embed : String → Except Unit (List ℝ))
    (filterModel : String → Except Unit String)
    (gen : String → ChatContext → Except Unit String)
    (reviewModel : String → String → Except Unit String)
    (locModel : String → Except Unit String)
    (settings : Option Settings) (clientApiKey : Option String)
    (userMessage : String) (rawConversationHistory : List Message)
    (storageMessages : List Message) : Except Unit String × List Message :=
  match settings with
  | none => (Except.error (), storageMessages)
  | some s =>
    match jsTruthy (jsOrOption clientApiKey s.geminiApiKey) with
    | none => (Except.error (), storageMessages)
    | some _geminiApiKey =>
      let lastKnownLocation := lastKnownLocationOf rawConversationHistory
      let createdMessage : Message :=
        ⟨freshId storageMessages, "user", userMessage, some lastKnownLocation⟩
      let storage1 := storageMessages ++ [createdMessage]
      let updatedConversationHistory := rawConversationHistory ++ [createdMessage]
      match smartRagHandleRequest embed filterModel userMessage
          updatedConversationHistory storage1 with
      | Except.error e => (Except.error e, storage1)
      | Except.ok filteredCanon =>
        let chatContext := mkChatContext s filteredCanon updatedConversationHistory
        match genLoop (gen userMessage)
            (fun g => reviewResponse reviewModel g userMessage) 2 chatContext "" with
        | Except.error e => (Except.error e, storage1)
        | Except.ok (response, _, _) =>
          let newLocation := jsOrString (extractLocation locModel response) lastKnownLocation
          let storage2 := storage1 ++
            [⟨freshId storage1, "assistant", response, some newLocation⟩]
          (Except.ok response, storage2)

/-- The persistence and consolidation tail of the `/api/chat` route
(`src/server/routes.ts`): persist the user turn, run the generation
pipeline (whose provider-produced text is `aiResponse`), persist the
assistant turn, and when the resulting total message count is a positive
multiple of 4, create a memory log from the last four messages with the
output of the summarization provider and importance 5. -/
def chatExchange (summarizeForMemory : List String → String)
    (content aiResponse : String) (msgs : List Message) (logs : List MemoryLog) :
    List Message × List MemoryLog :=
  let userMessage : Message := ⟨freshId msgs, "user", content, none⟩
  let msgs1 := msgs ++ [userMessage]
  let assistantMessage : Message := ⟨freshId msgs1, "assistant", aiResponse, none⟩
  let updatedMessages := msgs1 ++ [assistantMessage]
  let totalMessages := updatedMessages.length
  if totalMessages % 4 = 0 ∧ totalMessages > 0 then
    let lastFourMessages := updatedMessages.drop (updatedMessages.length - 4)
    let conversationSnippet := String.intercalate "\n"
      (lastFourMessages.map (fun m => m.role ++ ": " ++ m.content))
    let summary := summarizeForMemory (lastFourMessages.map (·.content))
    (updatedMessages, logs ++ [⟨conversationSnippet, summary, 5⟩])
  else (updatedMessages, logs)

/-- C7: for every generated text and user message, if the reviewer
provider call fails, `ProofreaderAgent.reviewResponse` returns a verdict
with `isCompliant = true` and no feedback, so a reviewer failure never
prevents the response from being delivered. -/
theorem reviewer_failure_defaults_compliant
    (reviewModel : String → String → Except Unit String) (response userMessage : String)
    (h : reviewModel response userMessage = Except.error ()) :
    reviewResponse reviewModel response userMessage = ⟨true, none⟩ := by
  unfold reviewResponse
  rw [h]

theorem reviewer_failure_defaults_compliant_witness :
    reviewResponse (fun _ _ => Except.error ()) "The hero leaves at dawn." "I wait." =
      ⟨true, none⟩ :=
  reviewer_failure_defaults_compliant (fun _ _ => Except.error ())
    "The hero leaves at dawn." "I wait." rfl

/-- C8: `SmartRagAgent.filterContext` with an empty retrieved-turn list
returns the empty string immediately for every provider; with a non-empty
retrieved-turn list a provider error is not caught and propagates. -/
theorem distiller_empty_immediate_and_error_propagates :
    (∀ (filterModel : String → Except Unit String) (userMessage : String)
        (recentHistory : List Message),
        filterContext filterModel userMessage [] recentHistory = Except.ok "") ∧
    (∀ (filterModel : String → Except Unit String) (userMessage : String)
        (retrievedMemories recentHistory : List Message) (e : Unit),
        retrievedMemories ≠ [] →
        filterModel (buildFilteringPrompt userMessage retrievedMemories recentHistory) =
          Except.error e →
        filterContext filterModel userMessage retrievedMemories recentHistory =
          Except.error e) := by
  refine ⟨fun filterModel u hist => rfl, fun filterModel u mems hist e hne hm => ?_⟩
  have hlen : ¬ (mems.length = 0) := by simpa [List.length_eq_zero] using hne
  simp [filterContext, hlen, hm]

theorem distiller_empty_immediate_and_error_propagates_witness :
    (filterContext (fun _ => Except.ok "unused") "go on" [] [] = Except.ok "") ∧
    (filterContext (fun _ => Except.error ()) "go on"
        [⟨"1", "user", "I open the gate.", none⟩] [] = Except.error ()) :=
  ⟨distiller_empty_immediate_and_error_propagates.1 (fun _ => Except.ok "unused") "go on" [],
   distiller_empty_immediate_and_error_propagates.2 (fun _ => Except.error ()) "go on"
     [⟨"1", "user", "I open the gate.", none⟩] [] () (by decide) rfl⟩

/-- C4: `_extractLocation` returns the trimmed capture of a leading
`**Location:**` line without consulting the model when the capture is
non-empty; only when that match is absent (or captures nothing) does it
consult the model on the first five lines, accepting the answer only when
it is non-empty, not `"N/A"`, and longer than 5 characters, and yielding
`none` (so that the caller falls back to the previous known location) on
provider failure or rejection. -/
theorem location_explicit_first_model_fallback :
    (∀ (locModel : String → Except Unit String) (text captured : String),
        matchExplicitLocation text = some captured → captured ≠ "" →
        extractLocation locModel text = some (jsTrim captured)) ∧
    (∀ (locModel : String → Except Unit String) (text : String), text ≠ "" →
        (matchExplicitLocation text = none ∨ matchExplicitLocation text = some "") →
        extractLocation locModel text = modelExtract locModel text) ∧
    (∀ (locModel : String → Except Unit String) (text raw : String),
        locModel (headerOf text) = Except.ok raw →
        modelExtract locModel text =
          (if jsTrim raw ≠ "" && jsTrim raw ≠ "N/A" && (jsTrim raw).length > 5
           then some (jsTrim raw) else none)) ∧
    (∀ (locModel : String → Except Unit String) (text : String) (e : Unit),
        locModel (headerOf text) = Except.error e → modelExtract locModel text = none) ∧
    (∀ (locModel : String → Except Unit String) (text lastKnownLocation : String),
        extractLocation locModel text = none →
        jsOrString (extractLocation locModel text) lastKnownLocation = lastKnownLocation) := by
  refine ⟨?_, ?_, ?_, ?_, ?_⟩
  · intro locModel text captured h hne
    have htext : text ≠ "" := by
      rintro rfl
      rw [show matchExplicitLocation "" = none from rfl] at h
      exact Option.noConfusion h
    simp [extractLocation, htext, h, hne]
  · intro locModel text htext hmatch
    rcases hmatch with h | h
    · simp [extractLocation, htext, h]
    · simp [extractLocation, htext, h]
  · intro locModel text raw h
    simp only [modelExtract, h]
  · intro locModel text e h
    simp only [modelExtract, h]
  · intro locModel text lastKnownLocation h
    rw [h]
    rfl

theorem location_explicit_first_model_fallback_witness :
    (extractLocation (fun _ => Except.error ()) "**Location:** Grand Hall\nThe door opens." =
      some "Grand Hall") ∧
    (modelExtract (fun _ => Except.error ()) "A quiet morning." = none) ∧
    (jsOrString (extractLocation (fun _ => Except.error ()) "A quiet morning.")
      "Heizen Academy" = "Heizen Academy") :=
  ⟨location_explicit_first_model_fallback.1 (fun _ => Except.error ())
      "**Location:** Grand Hall\nThe door opens." "Grand Hall" rfl (by decide),
   location_explicit_first_model_fallback.2.2.2.1 (fun _ => Except.error ())
      "A quiet morning." () rfl,
   location_explicit_first_model_fallback.2.2.2.2 (fun _ => Except.error ())
      "A quiet morning." "Heizen Academy" rfl⟩

/-- The message list persisted by one chat exchange: the previous storage
followed by the new user turn and the new assistant turn (the first
component of `chatExchange`). -/
def routeUpdatedMessages (content aiResponse : String) (msgs : List Message) : List Message :=
  let userMessage : Message := ⟨freshId msgs, "user", content, none⟩
  let msgs1 := msgs ++ [userMessage]
  let assistantMessage : Message := ⟨freshId msgs1, "assistant", aiResponse, none⟩
  msgs1 ++ [assistantMessage]

/-- C5: the chat route creates a memory log during an exchange iff the
total persisted turn count after the exchange is a positive multiple of 4;
when created, its content is the transcript of the last 4 turns, its
summary is the output of the summarization provider over those 4 turn
contents,
and its importance is the fixed default 5. -/
theorem memory_log_iff_positive_multiple_of_four
    (summarizeForMemory : List String → String) (content aiResponse : String)
    (msgs : List Message) (logs : List MemoryLog) :
    ((chatExchange summarizeForMemory content aiResponse msgs logs).1 =
        routeUpdatedMessages content aiResponse msgs) ∧
    ((chatExchange summarizeForMemory content aiResponse msgs logs).2.length
        = logs.length + 1 ↔
      ((chatExchange summarizeForMemory content aiResponse msgs logs).1.length % 4 = 0 ∧
        0 < (chatExchange summarizeForMemory content aiResponse msgs logs).1.length)) ∧
    ((routeUpdatedMessages content aiResponse msgs).length % 4 = 0 →
      (chatExchange summarizeForMemory content aiResponse msgs logs).2 =
        logs ++ [{ content := String.intercalate "\n"
                     (((routeUpdatedMessages content aiResponse msgs).drop
                        ((routeUpdatedMessages content aiResponse msgs).length - 4)).map
                       (fun m => m.role ++ ": " ++ m.content)),
                   summary := summarizeForMemory
                     (((routeUpdatedMessages content aiResponse msgs).drop
                        ((routeUpdatedMessages content aiResponse msgs).length - 4)).map
                       (·.content)),
                   importance := 5 }]) ∧
    ((routeUpdatedMessages content aiResponse msgs).length % 4 ≠ 0 →
      (chatExchange summarizeForMemory content aiResponse msgs logs).2 = logs) := by
  have hfst : (chatExchange summarizeForMemory content aiResponse msgs logs).1 =
      routeUpdatedMessages content aiResponse msgs := by
    unfold chatExchange routeUpdatedMessages
    dsimp only
    split <;> rfl
  have hulen : (routeUpdatedMessages content aiResponse msgs).length = msgs.length + 2 := by
    simp [routeUpdatedMessages]
  by_cases hc : (msgs.length + 2) % 4 = 0
  · have hsnd : (chatExchange summarizeForMemory content aiResponse msgs logs).2 =
        logs ++ [{ content := String.intercalate "\n"
                     (((routeUpdatedMessages content aiResponse msgs).drop
                        ((routeUpdatedMessages content aiResponse msgs).length - 4)).map
                       (fun m => m.role ++ ": " ++ m.content)),
                   summary := summarizeForMemory
                     (((routeUpdatedMessages content aiResponse msgs).drop
                        ((routeUpdatedMessages content aiResponse msgs).length - 4)).map
                       (·.content)),
                   importance := 5 }] := by
      unfold chatExchange routeUpdatedMessages
      dsimp only
      rw [if_pos]
      constructor
      · simpa using hc
      · simp
    refine ⟨hfst, ?_, fun _ => hsnd, fun hne => absurd (by rw [hulen] at hne ⊢; exact hc) hne⟩
    rw [hsnd, hfst, hulen]
    simp [hc]
  · have hsnd : (chatExchange summarizeForMemory content aiResponse msgs logs).2 = logs := by
      unfold chatExchange
      dsimp only
      rw [if_neg]
      intro hcond
      apply hc
      simpa using hcond.1
    refine ⟨hfst, ?_, fun hmod => absurd (by rwa [hulen] at hmod) hc, fun _ => hsnd⟩
    rw [hsnd, hfst, hulen]
    simp [hc]

theorem memory_log_iff_positive_multiple_of_four_witness :
    (chatExchange (fun cs => String.intercalate " | " cs) "hello" "reply"
        [⟨"0", "user", "a", none⟩, ⟨"1", "assistant", "b", none⟩] []).2 =
      [] ++ [{ content := "user: a\nassistant: b\nuser: hello\nassistant: reply",
               summary := "a | b | hello | reply", importance := 5 }] := by
  have h := (memory_log_iff_positive_multiple_of_four
    (fun cs => String.intercalate " | " cs) "hello" "reply"
    [⟨"0", "user", "a", none⟩, ⟨"1", "assistant", "b", none⟩] []).2.2.1 (by decide)
  rw [h]
  rfl

/-- The attempt counter returned by `genLoop` never exceeds the iteration
budget. -/
theorem genLoop_attempts_le (gen : ChatContext → Except Unit String)
    (review : String → ProofreaderResult) :
    ∀ (fuel : Nat) (ctx : ChatContext) (r0 resp : String) (c : ChatContext) (k : Nat),
      genLoop gen review fuel ctx r0 = Except.ok (resp, c, k) → k ≤ fuel := by
  intro fuel
  induction fuel with
  | zero =>
    intro ctx r0 resp c k h
    simp only [genLoop, Except.ok.injEq, Prod.mk.injEq] at h
    omega
  | succ n ih =>
    intro ctx r0 resp c k h
    simp only [genLoop] at h
    split at h
    · exact absurd h (by simp)
    · split at h
      · simp only [Except.ok.injEq, Prod.mk.injEq] at h
        omega
      · split at h
        · rename_i heq
          simp only [Except.ok.injEq, Prod.mk.injEq] at h
          have := ih _ _ _ _ _ heq
          omega
        · exact absurd h (by simp)

/-- C1: the generation loop of the orchestrator performs at most 2
generation attempts regardless of reviewer verdicts; when both attempts
are judged non-compliant the text of the second attempt is the result of
the loop; and whatever
the loop returns is both persisted as the assistant turn and returned to
the caller. -/
theorem generation_two_attempts_last_text_persisted :
    (∀ (gen : ChatContext → Except Unit String) (review : String → ProofreaderResult)
        (ctx c : ChatContext) (r0 resp : String) (k : Nat),
        genLoop gen review 2 ctx r0 = Except.ok (resp, c, k) → k ≤ 2) ∧
    (∀ (gen : ChatContext → Except Unit String) (review : String → ProofreaderResult)
        (ctx : ChatContext) (g1 g2 : String) (fb1 fb2 : Option String),
        gen ctx = Except.ok g1 → review g1 = ⟨false, fb1⟩ →
        gen (pushFeedback ctx g1 fb1) = Except.ok g2 → review g2 = ⟨false, fb2⟩ →
        genLoop gen review 2 ctx "" =
          Except.ok (g2, pushFeedback (pushFeedback ctx g1 fb1) g2 fb2, 2)) ∧
    (∀ (embed : String → Except Unit (List ℝ)) (filterModel : String → Except Unit String)
        (gen : String → ChatContext → Except Unit String)
        (reviewModel : String → String → Except Unit String)
        (locModel : String → Except Unit String) (s : Settings)
        (clientApiKey : Option String) (userMessage : String)
        (hist storage : List Message) (resp : String) (msgs' : List Message),
        handleRequest embed filterModel gen reviewModel locModel (some s) clientApiKey
          userMessage hist storage = (Except.ok resp, msgs') →
        msgs' =
          (storage ++ [⟨freshId storage, "user", userMessage,
            some (lastKnownLocationOf hist)⟩]) ++
          [⟨freshId (storage ++ [⟨freshId storage, "user", userMessage,
              some (lastKnownLocationOf hist)⟩]), "assistant", resp,
            some (jsOrString (extractLocation locModel resp) (lastKnownLocationOf hist))⟩]) := by
  refine ⟨?_, ?_, ?_⟩
  · intro gen review ctx c r0 resp k h
    exact genLoop_attempts_le gen review 2 ctx r0 resp c k h
  · intro gen review ctx g1 g2 fb1 fb2 hg1 hr1 hg2 hr2
    simp only [genLoop, hg1, hr1, hg2, hr2]
    simp
  · intro embed filterModel gen reviewModel locModel s clientApiKey userMessage hist
      storage resp msgs' h
    unfold handleRequest at h
    dsimp only at h
    split at h
    · exact absurd h (by simp)
    · split at h
      · exact absurd h (by simp)
      · split at h
        · exact absurd h (by simp)
        · rename_i response ctx' k heq
          obtain ⟨h1, h2⟩ := Prod.mk.injEq .. ▸ h
          obtain rfl : resp = response := by
            exact (Except.ok.injEq .. ▸ h1.symm)
          rw [← h2]

theorem generation_two_attempts_last_text_persisted_witness :
    genLoop (fun ctx => Except.ok (toString ctx.conversationHistory.length))
        (fun g => ⟨false, some ("bad: " ++ g)⟩) 2 ⟨"bp", "ft", none, [], []⟩ "" =
      Except.ok ("2",
        pushFeedback (pushFeedback ⟨"bp", "ft", none, [], []⟩ "0" (some "bad: 0"))
          "2" (some "bad: 2"), 2) :=
  generation_two_attempts_last_text_persisted.2.1
    (fun ctx => Except.ok (toString ctx.conversationHistory.length))
    (fun g => ⟨false, some ("bad: " ++ g)⟩) ⟨"bp", "ft", none, [], []⟩
    "0" "2" (some "bad: 0") (some "bad: 2") rfl rfl rfl rfl

/-- C10: the orchestrator persists the user turn before retrieval,
distillation and generation run; when any of those later stages throws
(with settings and key present), the storage after the call is exactly the
old storage plus the user turn — the user turn remains and no assistant
turn is persisted.  The pipeline is not atomic on error. -/
theorem user_turn_persisted_before_fallible_stages
    (embed : String → Except Unit (List ℝ)) (filterModel : String → Except Unit String)
    (gen : String → ChatContext → Except Unit String)
    (reviewModel : String → String → Except Unit String)
    (locModel : String → Except Unit String) (s : Settings)
    (clientApiKey : Option String) (userMessage : String)
    (hist storage : List Message) (e : Unit) (msgs' : List Message)
    (hkey : jsTruthy (jsOrOption clientApiKey s.geminiApiKey) ≠ none)
    (h : handleRequest embed filterModel gen reviewModel locModel (some s) clientApiKey
      userMessage hist storage = (Except.error e, msgs')) :
    msgs' = storage ++
      [⟨freshId storage, "user", userMessage, some (lastKnownLocationOf hist)⟩] := by
  unfold handleRequest at h
  dsimp only at h
  split at h
  · rename_i heq
    exact absurd heq hkey
  · split at h
    · obtain ⟨h1, h2⟩ := Prod.mk.injEq .. ▸ h
      rw [← h2]
    · split at h
      · obtain ⟨h1, h2⟩ := Prod.mk.injEq .. ▸ h
        rw [← h2]
      · exact absurd h (by simp)

theorem user_turn_persisted_before_fallible_stages_witness :
    (handleRequest (fun _ => Except.error ()) (fun _ => Except.ok "")
        (fun _ _ => Except.error ()) (fun _ _ => Except.ok "COMPLIANT")
        (fun _ => Except.ok "N/A") (some ⟨some "key", "bp", "", "", ""⟩) none
        "hi" [] []).2 =
      [] ++ [⟨freshId [], "user", "hi", some (lastKnownLocationOf [])⟩] :=
  user_turn_persisted_before_fallible_stages (fun _ => Except.error ())
    (fun _ => Except.ok "") (fun _ _ => Except.error ())
    (fun _ _ => Except.ok "COMPLIANT") (fun _ => Except.ok "N/A")
    ⟨some "key", "bp", "", "", ""⟩ none "hi" [] [] () _ (by decide) rfl

/-- The merge loop appends exactly the semantic results whose id is not in
`existingIds`. -/
theorem mergeSemantic_eq (existingIds : List String) :
    ∀ (l combined : List Message),
      mergeSemantic combined existingIds l =
        combined ++ l.filter (fun m => decide (m.id ∉ existingIds)) := by
  intro l
  induction l with
  | nil => intro combined; simp [mergeSemantic]
  | cons m rest ih =>
    intro combined
    by_cases hm : m.id ∈ existingIds
    · simp [mergeSemantic, hm, ih]
    · simp [mergeSemantic, hm, ih]

/-- Keyword search over an empty corpus yields nothing. -/
theorem keywordSearch_nil (query : String) : keywordSearch query [] = [] := by
  unfold keywordSearch
  dsimp only
  split
  · rfl
  · have hf : ∀ ks : List String,
        (ks.map (fun keyword =>
          ((List.filter (fun m : Message =>
              containsSub ((jsToLower keyword).toList) ((jsToLower m.content).toList))
            ([] : List Message)).mergeSort
            (fun a b : Message => decide (a.content.length ≤ b.content.length))).take
            (if (extractKeywords query).length < 5 then 15 else 10))).flatten = [] := by
      intro ks
      induction ks with
      | nil => rfl
      | cons k rest ih => simp [ih]
    rw [hf]
    rfl

/-- Semantic search over an empty corpus yields nothing, whatever the
provider does. -/
theorem semanticSearch_nil (embed : String → Except Unit (List ℝ)) (query : String) :
    semanticSearch embed query [] = [] := by
  unfold semanticSearch semanticSearchTry
  cases h : embed query with
  | error e => simp [h]
  | ok qe => simp [h, getEmbeddings]

/-- The merged retrieval result, written out: keyword results first, then
the semantic results whose id is new, capped at 100. -/
theorem queryMessages_eq (embed : String → Except Unit (List ℝ)) (query : String)
    (allMessages : List Message) :
    queryMessages embed query allMessages =
      (keywordSearch query allMessages ++
        (semanticSearch embed query allMessages).filter
          (fun m => decide (m.id ∉ (keywordSearch query allMessages).map (·.id)))).take
        100 := by
  unfold queryMessages
  by_cases hlen : allMessages.length = 0
  · rw [if_pos hlen]
    obtain rfl : allMessages = [] := List.length_eq_zero.mp hlen
    rw [keywordSearch_nil, semanticSearch_nil]
    rfl
  · rw [if_neg hlen]
    dsimp only
    rw [mergeSemantic_eq]

/-- C3: in the merged retrieval result every keyword-stage turn precedes
every semantic-only turn — the merge starts from the keyword results and
appends only those semantic results whose turn id is not already present,
before the final cap of 100. -/
theorem merge_keyword_results_precede_semantic
    (embed : String → Except Unit (List ℝ)) (query : String) (allMessages : List Message) :
    queryMessages embed query allMessages =
      (keywordSearch query allMessages ++
        (semanticSearch embed query allMessages).filter
          (fun m => decide (m.id ∉ (keywordSearch query allMessages).map (·.id)))).take
        100 :=
  queryMessages_eq embed query allMessages

/-- C6: if the embedding provider fails during the semantic stage, the
semantic stage contributes the empty list and the merged retrieval result
is the keyword-stage result alone (with the standard final cap); an
embedding failure never fails retrieval as a whole. -/
theorem embedding_failure_degrades_to_keyword_only
    (embed : String → Except Unit (List ℝ)) (query : String)
    (allMessages : List Message) (e : Unit)
    (hfail : semanticSearchTry embed query allMessages = Except.error e) :
    semanticSearch embed query allMessages = [] ∧
    mergeSemantic (keywordSearch query allMessages)
      ((keywordSearch query allMessages).map (·.id))
      (semanticSearch embed query allMessages) = keywordSearch query allMessages ∧
    queryMessages embed query allMessages = (keywordSearch query allMessages).take 100 := by
  have hsem : semanticSearch embed query allMessages = [] := by
    unfold semanticSearch
    rw [hfail]
  refine ⟨hsem, by rw [hsem]; rfl, ?_⟩
  rw [queryMessages_eq, hsem]
  simp

theorem embedding_failure_degrades_to_keyword_only_witness :
    queryMessages (fun _ => Except.error ()) "sky"
        [⟨"1", "assistant", "The sky is blue.", none⟩] =
      (keywordSearch "sky" [⟨"1", "assistant", "The sky is blue.", none⟩]).take 100 :=
  (embedding_failure_degrades_to_keyword_only (fun _ => Except.error ()) "sky"
    [⟨"1", "assistant", "The sky is blue.", none⟩] () rfl).2.2

/-- The function `dedupById` emits pairwise-distinct ids, none of them already seen. -/
theorem dedupById_ids_nodup : ∀ (l : List Message) (seen : List String),
    ((dedupById seen l).map (·.id)).Nodup ∧ ∀ m ∈ dedupById seen l, m.id ∉ seen := by
  intro l
  induction l with
  | nil => intro seen; exact ⟨List.nodup_nil, by simp [dedupById]⟩
  | cons m rest ih =>
    intro seen
    by_cases hm : m.id ∈ seen
    · simpa only [dedupById, if_pos hm] using ih seen
    · simp only [dedupById, if_neg hm]
      refine ⟨?_, ?_⟩
      · rw [List.map_cons]
        refine List.nodup_cons.mpr ⟨?_, (ih (m.id :: seen)).1⟩
        intro hmem
        obtain ⟨x, hx, hxid⟩ := List.mem_map.mp hmem
        exact (ih (m.id :: seen)).2 x hx (hxid ▸ List.mem_cons_self _ _)
      · intro x hx
        rcases List.mem_cons.mp hx with rfl | hx'
        · exact hm
        · intro hxs
          exact (ih (m.id :: seen)).2 x hx' (List.mem_cons_of_mem _ hxs)

/-- The keyword stage never emits two messages with the same id. -/
theorem keywordSearch_ids_nodup (query : String) (allMessages : List Message) :
    ((keywordSearch query allMessages).map (·.id)).Nodup := by
  unfold keywordSearch
  dsimp only
  split
  · simp
  · exact (dedupById_ids_nodup _ []).1

theorem zip_map_fst_sublist {α β : Type} :
    ∀ (l₁ : List α) (l₂ : List β), List.Sublist ((l₁.zip l₂).map Prod.fst) l₁ := by
  intro l₁
  induction l₁ with
  | nil => intro l₂; simp
  | cons a as ih =>
    intro l₂
    cases l₂ with
    | nil => simp
    | cons b bs => simpa using (ih bs).cons₂ a

/-- The semantic stage emits a sub-permutation of the corpus: each corpus
message appears at most as often as in the corpus. -/
theorem semanticSearch_subperm (embed : String → Except Unit (List ℝ)) (query : String)
    (allMessages : List Message) :
    List.Subperm (semanticSearch embed query allMessages) allMessages := by
  unfold semanticSearch
  cases htry : semanticSearchTry embed query allMessages with
  | error e => exact List.nil_subperm
  | ok r =>
    unfold semanticSearchTry at htry
    cases hq : embed query with
    | error e => rw [hq] at htry; exact absurd htry (by simp)
    | ok qe =>
      rw [hq] at htry
      cases hge : getEmbeddings embed (allMessages.map (·.content)) with
      | error e => rw [hge] at htry; exact absurd htry (by simp)
      | ok embs =>
        rw [hge] at htry
        dsimp only at htry
        have hr : r = (((((allMessages.zip embs).map
            (fun p => (p.1, cosineSimilarity qe p.2))).filter
              (fun s => decide ((0.1 : ℝ) < s.2))).mergeSort
            (fun a b => decide (b.2 ≤ a.2))).map (·.1)).take 15 := by
          cases htry
          rfl
        have h1 : List.Perm (((((allMessages.zip embs).map
            (fun p => (p.1, cosineSimilarity qe p.2))).filter
              (fun s => decide ((0.1 : ℝ) < s.2))).mergeSort
            (fun a b => decide (b.2 ≤ a.2))).map (·.1))
            ((((allMessages.zip embs).map
            (fun p => (p.1, cosineSimilarity qe p.2))).filter
              (fun s => decide ((0.1 : ℝ) < s.2))).map (·.1)) :=
          (List.mergeSort_perm _ _).map _
        have h2 : List.Sublist ((((allMessages.zip embs).map
            (fun p => (p.1, cosineSimilarity qe p.2))).filter
              (fun s => decide ((0.1 : ℝ) < s.2))).map (·.1))
            (((allMessages.zip embs).map
              (fun p => (p.1, cosineSimilarity qe p.2))).map (·.1)) :=
          (List.filter_sublist _).map _
        have h3 : List.Sublist (((allMessages.zip embs).map
            (fun p => (p.1, cosineSimilarity qe p.2))).map (·.1)) allMessages := by
          rw [List.map_map]
          exact zip_map_fst_sublist allMessages embs
        rw [hr]
        refine List.Subperm.trans (List.Sublist.subperm (List.take_sublist _ _)) ?_
        exact List.Subperm.trans h1.subperm (h2.trans h3).subperm

/-- C2: for every query and every turn corpus (whose turns, per the data
model, carry pairwise-distinct ids), the list returned by
`QueryAgent.queryMessages` has length at most 100 and contains no two
elements with the same turn id. -/
theorem retrieval_nodup_and_capped (embed : String → Except Unit (List ℝ))
    (query : String) (allMessages : List Message)
    (hids : (allMessages.map (·.id)).Nodup) :
    (queryMessages embed query allMessages).length ≤ 100 ∧
    ((queryMessages embed query allMessages).map (·.id)).Nodup := by
  rw [queryMessages_eq]
  refine ⟨List.length_take_le _ _, ?_⟩
  refine List.Nodup.sublist ((List.take_sublist _ _).map _) ?_
  rw [List.map_append]
  refine List.nodup_append.mpr ⟨keywordSearch_ids_nodup query allMessages, ?_, ?_⟩
  · have hsemid : ((semanticSearch embed query allMessages).map (·.id)).Nodup := by
      obtain ⟨l, hp, hs⟩ := semanticSearch_subperm embed query allMessages
      have hlid : (l.map (·.id)).Nodup := List.Nodup.sublist (hs.map _) hids
      exact (hp.map (·.id)).nodup_iff.mp hlid
    exact List.Nodup.sublist ((List.filter_sublist _).map _) hsemid
  · intro a hakw hafil
    obtain ⟨x, hx, rfl⟩ := List.mem_map.mp hafil
    have hxf := List.of_mem_filter hx
    simp only [decide_eq_true_eq] at hxf
    exact hxf hakw

theorem retrieval_nodup_and_capped_witness :
    (([⟨"1", "user", "the sky", none⟩,
       (⟨"2", "assistant", "blue sky", none⟩ : Message)].map (·.id)).Nodup) ∧
    ((queryMessages (fun _ => Except.error ()) "sky"
        [⟨"1", "user", "the sky", none⟩, ⟨"2", "assistant", "blue sky", none⟩]).map
        (·.id)).Nodup :=
  ⟨by decide,
   (retrieval_nodup_and_capped (fun _ => Except.error ()) "sky"
     [⟨"1", "user", "the sky", none⟩, ⟨"2", "assistant", "blue sky", none⟩]
     (by decide)).2⟩

theorem sumSq_nonneg (v : List ℝ) : 0 ≤ sumSq v := by
  induction v with
  | nil => simp [sumSq]
  | cons x xs ih =>
    have hx := mul_self_nonneg x
    simp only [sumSq, List.map_cons, List.sum_cons] at ih ⊢
    linarith

theorem magnitude_nonneg (v : List ℝ) : 0 ≤ magnitude v := Real.sqrt_nonneg _

theorem magnitude_mul_self (v : List ℝ) : magnitude v * magnitude v = sumSq v :=
  Real.mul_self_sqrt (sumSq_nonneg v)

theorem magnitude_eq_zero_iff (v : List ℝ) : magnitude v = 0 ↔ sumSq v = 0 := by
  unfold magnitude
  constructor
  · intro h
    have := magnitude_mul_self v
    unfold magnitude at this
    rw [h] at this
    linarith
  · intro h
    rw [h, Real.sqrt_zero]

/-- Cauchy–Schwarz for the zipped dot product of real lists. -/
theorem dotProduct_sq_le (a : List ℝ) : ∀ b : List ℝ,
    (dotProduct a b) ^ 2 ≤ sumSq a * sumSq b := by
  induction a with
  | nil =>
    intro b
    simp [dotProduct, sumSq]
  | cons x xs ih =>
    intro b
    cases b with
    | nil => simp [dotProduct, sumSq]
    | cons y ys =>
      have hxs := sumSq_nonneg xs
      have hys := sumSq_nonneg ys
      have hih := ih ys
      have hd : dotProduct (x :: xs) (y :: ys) = x * y + dotProduct xs ys := by
        simp [dotProduct]
      have hsa : sumSq (x :: xs) = x * x + sumSq xs := by simp [sumSq]
      have hsb : sumSq (y :: ys) = y * y + sumSq ys := by simp [sumSq]
      rw [hd, hsa, hsb]
      rcases eq_or_lt_of_le hxs with hSa0 | hSapos
      · have hD : dotProduct xs ys = 0 := by
          nlinarith [sq_nonneg (dotProduct xs ys)]
        rw [hD, ← hSa0]
        nlinarith [mul_nonneg (mul_self_nonneg x) hys]
      · nlinarith [sq_nonneg (x * dotProduct xs ys - y * sumSq xs), hih,
          mul_nonneg (mul_self_nonneg x) (sub_nonneg.mpr hih),
          mul_nonneg hxs (sub_nonneg.mpr hih), hSapos, hys]

theorem dotProduct_self (v : List ℝ) : dotProduct v v = sumSq v := by
  induction v with
  | nil => rfl
  | cons x xs ih => simp [dotProduct, sumSq] at ih ⊢; linarith

theorem sumSq_pos_of_mem {v : List ℝ} {x : ℝ} (hx : x ∈ v) (hx0 : x ≠ 0) :
    0 < sumSq v := by
  induction v with
  | nil => cases hx
  | cons a as ih =>
    rcases List.mem_cons.mp hx with rfl | hmem
    · have : 0 < x * x := mul_self_pos.mpr hx0
      have := sumSq_nonneg as
      simp only [sumSq, List.map_cons, List.sum_cons] at *
      linarith
    · have := ih hmem
      have ha := mul_self_nonneg a
      simp only [sumSq, List.map_cons, List.sum_cons] at *
      linarith

/-- C9: for equal-dimension real vectors, `cosineSimilarity` lies in
`[-1, 1]`; it returns 0 whenever either vector has zero magnitude; and it
equals 1 on any nonzero vector paired with itself. -/
theorem cosineSimilarity_bounds_zero_guard_self :
    (∀ a b : List ℝ, a.length = b.length →
      -1 ≤ cosineSimilarity a b ∧ cosineSimilarity a b ≤ 1) ∧
    (∀ a b : List ℝ, magnitude a = 0 ∨ magnitude b = 0 → cosineSimilarity a b = 0) ∧
    (∀ v : List ℝ, (∃ x ∈ v, x ≠ 0) → cosineSimilarity v v = 1) := by
  refine ⟨?_, ?_, ?_⟩
  · intro a b _hlen
    by_cases hz : magnitude a = 0 ∨ magnitude b = 0
    · unfold cosineSimilarity
      rw [if_pos hz]
      norm_num
    · unfold cosineSimilarity
      rw [if_neg hz]
      push_neg at hz
      have ha0 : 0 < magnitude a := lt_of_le_of_ne (magnitude_nonneg a) (Ne.symm hz.1)
      have hb0 : 0 < magnitude b := lt_of_le_of_ne (magnitude_nonneg b) (Ne.symm hz.2)
      have hM : 0 < magnitude a * magnitude b := mul_pos ha0 hb0
      have hcs : (dotProduct a b) ^ 2 ≤ (magnitude a * magnitude b) ^ 2 := by
        have h := dotProduct_sq_le a b
        have : (magnitude a * magnitude b) ^ 2 = sumSq a * sumSq b := by
          rw [← magnitude_mul_self a, ← magnitude_mul_self b]
          ring
        linarith
      have habs : |dotProduct a b| ≤ magnitude a * magnitude b := by
        nlinarith [sq_abs (dotProduct a b), abs_nonneg (dotProduct a b)]
      constructor
      · rw [le_div_iff₀ hM]
        have := (abs_le.mp habs).1
        linarith
      · rw [div_le_one hM]
        exact (abs_le.mp habs).2
  · intro a b hz
    unfold cosineSimilarity
    rw [if_pos hz]
  · intro v hv
    obtain ⟨x, hx, hx0⟩ := hv
    have hS : 0 < sumSq v := sumSq_pos_of_mem hx hx0
    have hmag : magnitude v ≠ 0 := by
      rw [Ne, magnitude_eq_zero_iff]
      linarith
    unfold cosineSimilarity
    rw [if_neg (by rintro (h | h) <;> exact hmag h)]
    rw [dotProduct_self, magnitude_mul_self]
    exact div_self (ne_of_gt hS)

theorem cosineSimilarity_bounds_zero_guard_self_witness :
    (-1 ≤ cosineSimilarity [(1 : ℝ), 0] [(0 : ℝ), 1] ∧
      cosineSimilarity [(1 : ℝ), 0] [(0 : ℝ), 1] ≤ 1) ∧
    cosineSimilarity [(3 : ℝ)] [(3 : ℝ)] = 1 :=
  ⟨cosineSimilarity_bounds_zero_guard_self.1 [(1 : ℝ), 0] [(0 : ℝ), 1] rfl,
   cosineSimilarity_bounds_zero_guard_self.2.2 [(3 : ℝ)]
     ⟨3, by simp, by norm_num⟩⟩
